import Mathlib

/-!
Shallow embedding of the OTP entry/verification widget of the MarketPlace-Web
storefront (component `OTPComponent` in `src/app/signin/page.tsx`).

The widget keeps a 5-slot code buffer (`otp : string[5]`, each slot a string
that is empty or a single decimal digit), a countdown `timer` starting at 60,
flags `disabledResend`, `isOtpExpired`, `isVerified`, modal state, and two
transient busy flags `isVerifying` / `isResending`.  The event handlers
`handleChange`, `handleKeyDown` (Backspace / Delete), `handlePaste`,
`handleVerify` and `handleResendOTP` are embedded below as pure functions on
this state; focus changes (`inputsRef.current[j]?.focus()`) are modelled as an
`Option Nat` focus command, and callbacks (`onResendOTP`, the scheduled
modal dismissal) as explicit outputs.
-/

namespace OTPWidget

/-- The regex test `/^\d?$/.test(value)` in `handleChange`: the value is the
empty string or a single decimal digit. -/
def matchesDigitOptRegex (v : String) : Bool :=
  match v.toList with
  | [] => true
  | [c] => c.isDigit
  | _ => false

/-- `handleChange(value, idx)`: if the value fails the digit regex the handler
returns without touching the buffer; otherwise slot `idx` is set to the value
and, when the value is non-empty and `idx < 4`, focus moves to slot `idx+1`.
Returns the new buffer and the focus command. -/
def handleChange (otp : List String) (v : String) (idx : Nat) :
    List String × Option Nat :=
  if matchesDigitOptRegex v then
    let newOtp := otp.set idx v
    (newOtp, if v ≠ "" ∧ idx < 4 then some (idx + 1) else none)
  else
    (otp, none)

/-- The loop in `handleKeyDown` that scans slots `i = idx .. otp.length-1` and
records the index of the last non-empty slot, starting from `-1`:
`lastFilledIndex` as computed by the code. -/
def lastFilledIndexFrom (otp : List String) (idx : Nat) : Int :=
  (List.range' idx (otp.length - idx)).foldl
    (fun acc i => if otp.getD i "" ≠ "" then (i : Int) else acc) (-1)

/-- The shifting loop `for (i = idx; i < last; i++) newOtp[i] = newOtp[i+1]`:
each slot in `[idx, last)` receives the value of its successor in the array
being mutated (reads stay strictly to the right of all writes so far). -/
def shiftLoop (a : List String) (idx last : Nat) : List String :=
  (List.range' idx (last - idx)).foldl (fun b i => b.set i (b.getD (i + 1) "")) a

/-- The Backspace branch of `handleKeyDown`: clear a non-empty slot in place;
on an empty slot, shift the values in `[idx, lastFilled]` left by one when a
non-empty slot exists to the right, and otherwise clear slot `idx-1` and focus
it (doing nothing when `idx = 0`).  Returns buffer and focus command. -/
def handleBackspace (otp : List String) (idx : Nat) : List String × Option Nat :=
  if otp.getD idx "" ≠ "" then
    (otp.set idx "", none)
  else
    let last := lastFilledIndexFrom otp idx
    if (idx : Int) < last then
      ((shiftLoop otp idx last.toNat).set last.toNat "", none)
    else if 0 < idx then
      (otp.set (idx - 1) "", some (idx - 1))
    else
      (otp, none)

/-- The Delete branch of `handleKeyDown`: only when slot `idx` is non-empty,
shift the values in `[idx, lastFilled]` left by one and blank the last filled
slot; focus is never moved.  On an empty slot the branch does nothing. -/
def handleDelete (otp : List String) (idx : Nat) : List String × Option Nat :=
  if otp.getD idx "" ≠ "" then
    let last := lastFilledIndexFrom otp idx
    let shifted := shiftLoop otp idx last.toNat
    (if (idx : Int) ≤ last then shifted.set last.toNat "" else shifted, none)
  else
    (otp, none)

/-- The digit extraction in `handlePaste`:
`pastedData.replace(/\D/g, '').slice(0, 5)`. -/
def pasteDigits (clip : String) : List Char :=
  (clip.toList.filter Char.isDigit).take 5

/-- `handlePaste`: when at least one digit survives the filter, slots
`[0, digits.length)` are filled with the digits, slots `[digits.length, 5)`
are cleared, and focus moves to `min(digits.length, 4)`; with no digits the
handler does nothing. -/
def handlePaste (otp : List String) (clip : String) : List String × Option Nat :=
  let digits := pasteDigits clip
  if 0 < digits.length then
    let newOtp := (List.range 5).foldl
      (fun a i =>
        a.set i (if h : i < digits.length then String.singleton (digits.get ⟨i, h⟩) else ""))
      otp
    (newOtp, some (min digits.length 4))
  else
    (otp, none)

/-- The component state tracked by `useState` hooks (without the transient
busy flags, which are threaded explicitly where the code reads them). -/
structure WState where
  otp : List String
  timer : Nat
  disabledResend : Bool
  isVerified : Bool
  isOtpExpired : Bool
  isError : Bool
  modalMessage : String
  isModalOpen : Bool
deriving DecidableEq

/-- The initial `useState` values: empty buffer, 60-second timer, resend
disabled, nothing verified or expired, modal closed. -/
def initState : WState :=
  { otp := ["", "", "", "", ""], timer := 60, disabledResend := true,
    isVerified := false, isOtpExpired := false, isError := false,
    modalMessage := "", isModalOpen := false }

/-- A local decision of `handleVerify` before any asynchronous work: the call
is silently ignored (`isVerifying` re-entry guard), rejected with a modal
error message, or proceeds to the network call `verifyOTP(code, referenceId)`. -/
inductive VerifyDecision where
  | ignored : VerifyDecision
  | localError (msg : String) : VerifyDecision
  | network (code : String) : VerifyDecision
deriving DecidableEq

/-- The guard section of `handleVerify`: return silently while a verification
is in flight; reject when `otp.join('')` has length ≠ 5; reject when the OTP
is expired or `referenceId` is the empty string (falsy); otherwise perform the
network call with the joined code. -/
def handleVerifyLocal (otp : List String) (referenceId : String)
    (isOtpExpired isVerifying : Bool) : VerifyDecision :=
  if isVerifying then
    .ignored
  else
    let code := String.join otp
    if code.length ≠ 5 then
      .localError "Please enter all 5 digits."
    else if isOtpExpired || referenceId == "" then
      .localError "OTP has expired. Please request a new one."
    else
      .network code

/-- The response branch of `handleVerify` applied to the returned
`statusCode`.  The second component records whether a 2000 ms timeout was
scheduled that closes the modal and invokes `onVerificationSuccess`. -/
def applyVerifyResponse (s : WState) (statusCode : String) : WState × Bool :=
  if statusCode == "1000" then
    ({ s with
        isVerified := true, isError := false,
        modalMessage := "OTP Verified Successfully!", isModalOpen := true }, true)
  else if statusCode == "1001" then
    ({ s with
        isError := true,
        modalMessage := "Invalid OTP. Please try again.", isModalOpen := true }, false)
  else if statusCode == "1002" || statusCode == "1003" then
    ({ s with
        isOtpExpired := true, isError := true,
        modalMessage := "OTP has expired. Please request a new one.",
        isModalOpen := true }, false)
  else
    ({ s with
        isError := true,
        modalMessage := "Something went wrong. Please try again.",
        isModalOpen := true }, false)

/-- JavaScript truthiness of an optional string (`undefined` and `""` are
falsy). -/
def jsTruthy (o : Option String) : Bool :=
  match o with
  | none => false
  | some m => m ≠ ""

/-- `pat.hasPref hay`: the character list `pat` is an initial segment of
`hay` (helper for JavaScript `String.prototype.includes`). -/
def hasPref : List Char → List Char → Bool
  | [], _ => true
  | _ :: _, [] => false
  | p :: ps, h :: hs => p == h && hasPref ps hs

/-- Substring search over character lists, matching the semantics of
JavaScript `hay.includes(pat)`. -/
def containsSub : List Char → List Char → Bool
  | [], pat => hasPref pat []
  | h :: t, pat => hasPref pat (h :: t) || containsSub t pat

/-- JavaScript `hay.includes(pat)` on strings. -/
def stringIncludes (hay pat : String) : Bool :=
  containsSub hay.toList pat.toList

/-- JavaScript `s.toLowerCase()`, modelled character-wise (the error texts
involved are ASCII). -/
def jsToLowerCase (s : String) : String :=
  ⟨s.toList.map Char.toLower⟩

/-- The catch branch of `handleVerify`: when the thrown error has a truthy
`message` whose lower-cased text includes `"expired"`, the widget marks the
OTP expired; otherwise it shows a generic failure without touching the
expiry flag. -/
def applyVerifyCatch (s : WState) (errMessage : Option String) : WState :=
  if jsTruthy errMessage && stringIncludes (jsToLowerCase (errMessage.getD "")) "expired" then
    { s with
        isOtpExpired := true, isError := true,
        modalMessage := "OTP has expired. Please request a new one.",
        isModalOpen := true }
  else
    { s with
        isError := true,
        modalMessage := "Failed to verify OTP. Try again later.",
        isModalOpen := true }

/-- Outcome of `handleResendOTP` once the `sendOTPInSignup` response is in:
the new widget state, the argument passed to `onResendOTP` (when called), and
the focus command. -/
structure ResendOutcome where
  state : WState
  callbackRef : Option String
  focusCmd : Option Nat
deriving DecidableEq

/-- The response handling of `handleResendOTP`: with a truthy
`res.referenceId` the timer is reset to 60, resend is re-disabled, the expiry
flag cleared, the buffer cleared, `onResendOTP` is called with the new
reference, and slot 0 is focused; otherwise the thrown error is caught and
only the modal error state changes. -/
def applyResendResponse (s : WState) (res : Option String) : ResendOutcome :=
  if jsTruthy res then
    { state := { s with
        timer := 60, disabledResend := true, isOtpExpired := false,
        otp := ["", "", "", "", ""], isVerified := false, isError := false,
        modalMessage := "New OTP has been sent to your mobile number.",
        isModalOpen := true },
      callbackRef := some (res.getD ""), focusCmd := some 0 }
  else
    { state := { s with
        isError := true,
        modalMessage := "Failed to get reference ID for new OTP",
        isModalOpen := true },
      callbackRef := none, focusCmd := none }

/-- One tick of the countdown `useEffect`: `setTimer(prev => prev - 1)` is
scheduled only while `timer > 0`; when the decrement reaches 0 the effect
re-runs and immediately enables resend and marks the OTP expired (and calls
`onOTPExpired`), before any further user event is processed. -/
def tickResult (s : WState) : WState :=
  let s' := { s with timer := s.timer - 1 }
  if s'.timer = 0 then
    { s' with disabledResend := false, isOtpExpired := true }
  else
    s'

/-- Opening the error modal with a message (`setIsError(true)` /
`setModalMessage(m)` / `setIsModalOpen(true)`), as done by the local rejection
branches of `handleVerify`. -/
def applyLocalError (s : WState) (m : String) : WState :=
  { s with isError := true, modalMessage := m, isModalOpen := true }

/-- The event-level transition relation of the widget: countdown ticks (with
the expiry effect firing when 0 is reached), the expiry effect re-running at
0, the four buffer-editing handlers, the local rejection, response and catch
branches of `handleVerify`, the modal being dismissed, and
`handleResendOTP` (guarded by `disabledResend`). -/
inductive Step : WState → WState → Prop where
  | tick (s : WState) (h : 0 < s.timer) : Step s (tickResult s)
  | expireEffect (s : WState) (h : s.timer = 0) :
      Step s { s with disabledResend := false, isOtpExpired := true }
  | change (s : WState) (v : String) (idx : Nat) :
      Step s { s with otp := (handleChange s.otp v idx).1 }
  | keyBackspace (s : WState) (idx : Nat) :
      Step s { s with otp := (handleBackspace s.otp idx).1 }
  | keyDelete (s : WState) (idx : Nat) :
      Step s { s with otp := (handleDelete s.otp idx).1 }
  | paste (s : WState) (clip : String) :
      Step s { s with otp := (handlePaste s.otp clip).1 }
  | verifyReject (s : WState) (m : String) (ref : String)
      (h : handleVerifyLocal s.otp ref s.isOtpExpired false = .localError m) :
      Step s (applyLocalError s m)
  | verifyResp (s : WState) (sc : String) : Step s (applyVerifyResponse s sc).1
  | verifyCatch (s : WState) (em : Option String) : Step s (applyVerifyCatch s em)
  | closeModal (s : WState) : Step s { s with isModalOpen := false }
  | resendResp (s : WState) (res : Option String) (h : s.disabledResend = false) :
      Step s (applyResendResponse s res).state

/-- States reachable from the initial widget state by event steps. -/
def Reachable (s : WState) : Prop :=
  Relation.ReflTransGen Step initState s

/-! ### Specification-side definitions -/

/-- The buffer-slot invariant of the spec: a slot holds the empty string or
exactly one decimal digit. -/
def validSlot (s : String) : Bool :=
  match s.toList with
  | [] => true
  | [c] => c.isDigit
  | _ => false

/-- The buffer invariant of the spec: exactly 5 slots, each empty or a single
decimal digit. -/
def validBuf (otp : List String) : Prop :=
  otp.length = 5 ∧ ∀ x ∈ otp, validSlot x = true

/-- The four outcome classes the spec assigns to a `verifyOTP` status code. -/
inductive VerifyOutcomeSpec where
  | success : VerifyOutcomeSpec
  | invalidCode : VerifyOutcomeSpec
  | expiredCode : VerifyOutcomeSpec
  | unknownFailure : VerifyOutcomeSpec
deriving DecidableEq

/-- Classification of a status code, following the spec's words: `'1000'` is
success, `'1001'` invalid, `'1002'`/`'1003'` expired, anything else an
unknown failure. -/
def classifyStatusSpec (sc : String) : VerifyOutcomeSpec :=
  if sc = "1000" then .success
  else if sc = "1001" then .invalidCode
  else if sc = "1002" ∨ sc = "1003" then .expiredCode
  else .unknownFailure

/-- The response handling the spec describes, per outcome class: success marks
the widget verified and schedules the modal dismissal plus success callback;
invalid shows the invalid-code error; expired sets the local expiry flag and
shows the expired error; anything else shows a generic failure without
touching the expiry flag. -/
def verifyResponseSpec (s : WState) (sc : String) : WState × Bool :=
  match classifyStatusSpec sc with
  | .success =>
      ({ s with
          isVerified := true, isError := false,
          modalMessage := "OTP Verified Successfully!", isModalOpen := true }, true)
  | .invalidCode =>
      ({ s with
          isError := true,
          modalMessage := "Invalid OTP. Please try again.", isModalOpen := true }, false)
  | .expiredCode =>
      ({ s with
          isOtpExpired := true, isError := true,
          modalMessage := "OTP has expired. Please request a new one.",
          isModalOpen := true }, false)
  | .unknownFailure =>
      ({ s with
          isError := true,
          modalMessage := "Something went wrong. Please try again.",
          isModalOpen := true }, false)

/-! ### Helper lemmas -/

theorem string_length_toList (s : String) : s.length = s.toList.length :=
  rfl

theorem string_eq_empty_iff_toList (s : String) : s = "" ↔ s.toList = [] := by
  constructor
  · intro h; subst h; rfl
  · intro h
    apply String.ext
    exact h

theorem validSlot_length_le {s : String} (h : validSlot s = true) : s.length ≤ 1 := by
  rw [string_length_toList]
  unfold validSlot at h
  rcases hs : s.toList with _ | ⟨c, _ | ⟨d, t⟩⟩
  · simp [hs]
  · simp [hs]
  · rw [hs] at h
    simp at h

theorem validSlot_empty_iff_length {s : String} :
    s = "" ↔ s.length = 0 := by
  rw [string_eq_empty_iff_toList, string_length_toList, List.length_eq_zero]

theorem length_join_strings (l : List String) :
    (String.join l).length = (l.map String.length).sum := by
  rw [String.join_eq]
  show ((l.map String.data).flatten).length = _
  rw [List.length_flatten, List.map_map]
  rfl

theorem sum_lengths_le (l : List String) (h : ∀ x ∈ l, x.length ≤ 1) :
    (l.map String.length).sum ≤ l.length := by
  induction l with
  | nil => simp
  | cons a t ih =>
      simp only [List.map_cons, List.sum_cons, List.length_cons]
      have ha := h a (List.mem_cons_self a t)
      have ht := ih (fun x hx => h x (List.mem_cons_of_mem a hx))
      omega

/-- Under the slot invariant, the joined code has length equal to the number
of slots exactly when no slot is empty. -/
theorem join_length_eq_iff (l : List String) (h : ∀ x ∈ l, validSlot x = true) :
    (String.join l).length = l.length ↔ ∀ x ∈ l, x ≠ "" := by
  rw [length_join_strings]
  induction l with
  | nil => simp
  | cons a t ih =>
      have ha := h a (List.mem_cons_self a t)
      have ht : ∀ x ∈ t, validSlot x = true := fun x hx => h x (List.mem_cons_of_mem a hx)
      have hale := validSlot_length_le ha
      have hsum := sum_lengths_le t (fun x hx => validSlot_length_le (ht x hx))
      simp only [List.map_cons, List.sum_cons, List.length_cons, List.mem_cons]
      constructor
      · intro heq
        have h1 : a.length = 1 := by omega
        have h2 : (t.map String.length).sum = t.length := by omega
        intro x hx
        rcases hx with rfl | hx
        · intro he; subst he; simp at h1
        · exact ((ih ht).mp h2) x hx
      · intro hall
        have h1 : a.length = 1 := by
          have hane : a ≠ "" := hall a (Or.inl rfl)
          have := validSlot_empty_iff_length.not.mp hane
          omega
        have h2 : (t.map String.length).sum = t.length :=
          (ih ht).mpr (fun x hx => hall x (Or.inr hx))
        omega

/-! ### Lemmas about `List.getD` and `List.set` -/

theorem getD_set_self {α : Type} (l : List α) (i : Nat) (v d : α) (h : i < l.length) :
    (l.set i v).getD i d = v := by
  rw [List.getD_eq_getElem?_getD, List.getElem?_set]
  simp [h]

theorem getD_set_ne {α : Type} (l : List α) {i j : Nat} (v d : α) (h : i ≠ j) :
    (l.set i v).getD j d = l.getD j d := by
  rw [List.getD_eq_getElem?_getD, List.getElem?_set_ne h, ← List.getD_eq_getElem?_getD]

theorem getD_of_length_le {α : Type} (l : List α) (n : Nat) (d : α) (h : l.length ≤ n) :
    l.getD n d = d := by
  rw [List.getD_eq_getElem?_getD, List.getElem?_eq_none h]
  rfl

theorem getD_mem_or_eq_default {α : Type} (l : List α) (n : Nat) (d : α) :
    l.getD n d ∈ l ∨ l.getD n d = d := by
  by_cases h : n < l.length
  · left
    rw [List.getD_eq_getElem l d h]
    exact List.getElem_mem h
  · right
    exact getD_of_length_le l n d (by omega)

/-! ### Lemmas about the `lastFilledIndex` scanning loop -/

theorem lastFilled_fold_all_empty (otp : List String) :
    ∀ (n idx : Nat) (acc : Int),
      (∀ j, idx ≤ j → j < idx + n → otp.getD j "" = "") →
      (List.range' idx n).foldl
        (fun acc i => if otp.getD i "" ≠ "" then (i : Int) else acc) acc = acc := by
  intro n
  induction n with
  | zero => intro idx acc _; rfl
  | succ m ih =>
      intro idx acc h
      rw [List.range'_succ, List.foldl_cons]
      have hidx : otp.getD idx "" = "" := h idx le_rfl (by omega)
      rw [if_neg (not_not_intro hidx)]
      exact ih (idx + 1) acc (fun j h1 h2 => h j (by omega) (by omega))

theorem lastFilled_fold_spec (otp : List String) :
    ∀ (n idx : Nat) (acc : Int),
      (∀ j, idx ≤ j → j < idx + n → otp.getD j "" = "") ∨
      (∃ k : Nat,
        (List.range' idx n).foldl
          (fun acc i => if otp.getD i "" ≠ "" then (i : Int) else acc) acc = (k : Int) ∧
        idx ≤ k ∧ k < idx + n ∧ otp.getD k "" ≠ "" ∧
        ∀ j, k < j → j < idx + n → otp.getD j "" = "") := by
  intro n
  induction n with
  | zero => intro idx acc; left; intro j h1 h2; omega
  | succ m ih =>
      intro idx acc
      rw [List.range'_succ, List.foldl_cons]
      rcases ih (idx + 1) (if otp.getD idx "" ≠ "" then (idx : Int) else acc) with hemp | ⟨k, hk, h1, h2, h3, h4⟩
      · by_cases hidx : otp.getD idx "" = ""
        · left
          intro j hj1 hj2
          rcases Nat.eq_or_lt_of_le hj1 with rfl | hj
          · exact hidx
          · exact hemp j hj (by omega)
        · right
          refine ⟨idx, ?_, le_rfl, by omega, hidx, ?_⟩
          · rw [if_pos hidx]
            exact lastFilled_fold_all_empty otp m (idx + 1) _
              (fun j hj1 hj2 => hemp j hj1 (by omega))
          · intro j hj1 hj2
            exact hemp j (by omega) (by omega)
      · right
        exact ⟨k, hk, by omega, by omega, h3, fun j hj1 hj2 => h4 j hj1 (by omega)⟩

/-- Characterisation of `lastFilledIndexFrom`: either every slot at index
`≥ idx` is empty, or it returns the greatest index `k ≥ idx` of a non-empty
slot. -/
theorem lastFilledIndexFrom_spec (otp : List String) (idx : Nat) :
    (∀ j, idx ≤ j → j < otp.length → otp.getD j "" = "") ∨
    (∃ k : Nat, lastFilledIndexFrom otp idx = (k : Int) ∧
      idx ≤ k ∧ k < otp.length ∧ otp.getD k "" ≠ "" ∧
      ∀ j, k < j → j < otp.length → otp.getD j "" = "") := by
  rcases lastFilled_fold_spec otp (otp.length - idx) idx (-1) with hemp | ⟨k, hk, h1, h2, h3, h4⟩
  · left
    intro j hj1 hj2
    exact hemp j hj1 (by omega)
  · right
    exact ⟨k, hk, h1, by omega, h3, fun j hj1 hj2 => h4 j hj1 (by omega)⟩

/-- When every slot at index `≥ idx` is empty, the scan returns `-1`. -/
theorem lastFilledIndexFrom_all_empty (otp : List String) (idx : Nat)
    (h : ∀ j, idx ≤ j → j < otp.length → otp.getD j "" = "") :
    lastFilledIndexFrom otp idx = -1 :=
  lastFilled_fold_all_empty otp (otp.length - idx) idx (-1)
    (fun j h1 h2 => h j h1 (by omega))

/-! ### Lemmas about the shifting loop -/

theorem shift_fold_length :
    ∀ (n idx : Nat) (a : List String),
      ((List.range' idx n).foldl (fun b i => b.set i (b.getD (i + 1) "")) a).length
        = a.length := by
  intro n
  induction n with
  | zero => intro idx a; rfl
  | succ m ih =>
      intro idx a
      rw [List.range'_succ, List.foldl_cons, ih]
      exact List.length_set a idx _

theorem shift_fold_getD :
    ∀ (n idx : Nat) (a : List String), idx + n ≤ a.length →
      ∀ j, ((List.range' idx n).foldl (fun b i => b.set i (b.getD (i + 1) "")) a).getD j ""
        = if idx ≤ j ∧ j < idx + n then a.getD (j + 1) "" else a.getD j "" := by
  intro n
  induction n with
  | zero =>
      intro idx a _ j
      rw [if_neg (by omega)]
      rfl
  | succ m ih =>
      intro idx a ha j
      rw [List.range'_succ, List.foldl_cons]
      have hlen : (a.set idx (a.getD (idx + 1) "")).length = a.length :=
        List.length_set a idx _
      rw [ih (idx + 1) _ (by omega) j]
      by_cases h1 : idx + 1 ≤ j ∧ j < idx + 1 + m
      · rw [if_pos h1, if_pos (by omega), getD_set_ne a _ _ (by omega)]
      · rw [if_neg h1]
        by_cases h2 : j = idx
        · subst h2
          rw [getD_set_self a j _ _ (by omega), if_pos (by omega)]
        · rw [getD_set_ne a _ _ (Ne.symm h2), if_neg (by omega)]

theorem shift_fold_mem :
    ∀ (rng : List Nat) (a : List String) (x : String),
      x ∈ rng.foldl (fun b i => b.set i (b.getD (i + 1) "")) a → x ∈ a ∨ x = "" := by
  intro rng
  induction rng with
  | nil => intro a x hx; exact Or.inl hx
  | cons i t ih =>
      intro a x hx
      rw [List.foldl_cons] at hx
      rcases ih _ x hx with hx' | hx'
      · rcases List.mem_or_eq_of_mem_set hx' with h | h
        · exact Or.inl h
        · rcases getD_mem_or_eq_default a (i + 1) "" with hm | hm
          · exact Or.inl (h ▸ hm)
          · exact Or.inr (h.trans hm)
      · exact Or.inr hx'

theorem shiftLoop_length (a : List String) (idx last : Nat) :
    (shiftLoop a idx last).length = a.length :=
  shift_fold_length (last - idx) idx a

/-- Pointwise description of the combined shift-and-blank step
`shiftLoop otp idx k |>.set k ""` used by both Backspace and Delete, assuming
`k` is the last non-empty index at `≥ idx`: below `idx` slots are untouched,
slots `[idx, 4)` receive their right neighbour's value, and slot 4 ends empty. -/
theorem shift_set_spec (otp : List String) (idx k : Nat)
    (h5 : otp.length = 5) (hik : idx ≤ k) (hk5 : k < 5)
    (hemp : ∀ j, k < j → j < 5 → otp.getD j "" = "") :
    ∀ j, j < 5 → ((shiftLoop otp idx k).set k "").getD j "" =
      if j < idx then otp.getD j ""
      else if j < 4 then otp.getD (j + 1) "" else "" := by
  intro j hj
  have hslen : (shiftLoop otp idx k).length = 5 := by rw [shiftLoop_length, h5]
  have hget : ∀ j', (shiftLoop otp idx k).getD j' ""
      = if idx ≤ j' ∧ j' < k then otp.getD (j' + 1) "" else otp.getD j' "" := by
    intro j'
    have := shift_fold_getD (k - idx) idx otp (by omega) j'
    unfold shiftLoop
    rw [this]
    by_cases hc : idx ≤ j' ∧ j' < idx + (k - idx)
    · rw [if_pos hc, if_pos (by omega)]
    · rw [if_neg hc, if_neg (by omega)]
  by_cases hjk : j = k
  · subst hjk
    rw [getD_set_self _ _ _ _ (by omega)]
    by_cases hj4 : j < 4
    · rw [if_neg (by omega), if_pos hj4, hemp (j + 1) (by omega) (by omega)]
    · rw [if_neg (by omega), if_neg hj4]
  · rw [getD_set_ne _ _ _ (Ne.symm hjk), hget j]
    by_cases hc : idx ≤ j ∧ j < k
    · rw [if_pos hc, if_neg (by omega), if_pos (by omega)]
    · rw [if_neg hc]
      by_cases hji : j < idx
      · rw [if_pos hji]
      · have hkj : k < j := by omega
        rw [hemp j hkj hj, if_neg hji]
        by_cases hj4 : j < 4
        · rw [if_pos hj4, hemp (j + 1) (by omega) (by omega)]
        · rw [if_neg hj4]

/-! ### Lemmas about the paste fill loop -/

theorem fold_set_getD (v : Nat → String) :
    ∀ (rng : List Nat) (a : List String) (j : Nat), j < a.length →
      (rng.foldl (fun b i => b.set i (v i)) a).getD j ""
        = if j ∈ rng then v j else a.getD j "" := by
  intro rng
  induction rng with
  | nil => intro a j _; simp
  | cons i t ih =>
      intro a j hj
      rw [List.foldl_cons, ih (a.set i (v i)) j (by simpa using hj)]
      by_cases hjt : j ∈ t
      · simp [hjt]
      · by_cases hji : j = i
        · subst hji
          rw [getD_set_self a _ _ _ hj]
          simp [hjt]
        · rw [getD_set_ne a _ _ (Ne.symm hji)]
          simp [hjt, hji]

theorem fold_set_length (v : Nat → String) :
    ∀ (rng : List Nat) (a : List String),
      (rng.foldl (fun b i => b.set i (v i)) a).length = a.length := by
  intro rng
  induction rng with
  | nil => intro a; rfl
  | cons i t ih =>
      intro a
      rw [List.foldl_cons, ih, List.length_set]

theorem fold_set_mem (v : Nat → String) :
    ∀ (rng : List Nat) (a : List String) (x : String),
      x ∈ rng.foldl (fun b i => b.set i (v i)) a → x ∈ a ∨ ∃ i ∈ rng, x = v i := by
  intro rng
  induction rng with
  | nil => intro a x hx; exact Or.inl hx
  | cons i t ih =>
      intro a x hx
      rw [List.foldl_cons] at hx
      rcases ih _ x hx with hx' | ⟨i', hi', hv⟩
      · rcases List.mem_or_eq_of_mem_set hx' with h | h
        · exact Or.inl h
        · exact Or.inr ⟨i, List.mem_cons_self i t, h⟩
      · exact Or.inr ⟨i', List.mem_cons_of_mem i hi', hv⟩

theorem singleton_ne_empty (c : Char) : String.singleton c ≠ "" := by
  intro h
  have := congrArg String.data h
  simp [String.singleton] at this

theorem validSlot_singleton {c : Char} (h : c.isDigit = true) :
    validSlot (String.singleton c) = true := by
  unfold validSlot
  show (match [c] with
    | [] => true
    | [c] => c.isDigit
    | _ => false) = true
  simpa using h

/-! ### Claim C3: status-code mapping of the verify response -/

/-- C3: for every response of `verifyOTP`, the handler maps the returned
`statusCode` to exactly one of four outcomes — `'1000'` marks the widget
verified, shows the success message and schedules the dismissal plus the
success callback; `'1001'` shows the invalid-code error; `'1002'`/`'1003'`
set the expiry flag and show the expired error; every other code shows the
generic failure without setting the expiry flag.  The code's response
handling coincides with the spec-side mapping `verifyResponseSpec` driven by
the four-way classification `classifyStatusSpec`. -/
theorem verify_response_matches_spec :
    ∀ (s : WState) (sc : String), applyVerifyResponse s sc = verifyResponseSpec s sc := by
  intro s sc
  unfold applyVerifyResponse verifyResponseSpec classifyStatusSpec
  by_cases h1 : sc = "1000"
  · simp [h1]
  · by_cases h2 : sc = "1001"
    · simp [h1, h2]
    · by_cases h3 : sc = "1002"
      · simp [h1, h2, h3]
      · by_cases h4 : sc = "1003"
        · simp [h1, h2, h3, h4]
        · simp [h1, h2, h3, h4]

/-! ### Claim C7: successful resend resets the widget -/

/-- C7: for every resend whose response carries a (truthy) new session
reference, the widget resets the countdown to 60, re-disables resend, clears
the expiry flag, clears all 5 slots, and passes the new reference to the
`onResendOTP` callback. -/
theorem resend_success_resets (s : WState) (newRef : String) (h : newRef ≠ "") :
    (applyResendResponse s (some newRef)).state.timer = 60 ∧
    (applyResendResponse s (some newRef)).state.disabledResend = true ∧
    (applyResendResponse s (some newRef)).state.isOtpExpired = false ∧
    (applyResendResponse s (some newRef)).state.otp = ["", "", "", "", ""] ∧
    (applyResendResponse s (some newRef)).callbackRef = some newRef := by
  unfold applyResendResponse jsTruthy
  simp [h]

/-- Witness for C7 at the concrete reference `"r2"`. -/
theorem resend_success_resets_witness :
    (applyResendResponse initState (some "r2")).state.timer = 60 ∧
    (applyResendResponse initState (some "r2")).callbackRef = some "r2" :=
  ⟨(resend_success_resets initState "r2" (by decide)).1,
   (resend_success_resets initState "r2" (by decide)).2.2.2.2⟩

/-! ### Claim C8 (corrected): transport failure and the "expired" test -/

/-- C8 counterexample: the claim says the failure is treated as expired if
and only if the error text contains the substring `"expired"`; the error text
`"OTP EXPIRED"` does not contain that substring, yet the code sets the expiry
flag for it (it lower-cases the message first). -/
theorem verify_catch_counterexample :
    (applyVerifyCatch initState (some "OTP EXPIRED")).isOtpExpired = true ∧
    stringIncludes "OTP EXPIRED" "expired" = false := by
  decide

/-- C8 amended: on a thrown verification error, the resulting expiry flag is
the previous flag or-ed with the test "the error message is present,
non-empty, and its lower-cased text contains `"expired"`" (so the flag is
newly set exactly under the case-insensitive containment test, and left
unchanged otherwise), and the modal message is the expired message under that
test and the generic failure message otherwise. -/
theorem verify_catch_expired_iff :
    ∀ (s : WState) (em : Option String),
      (applyVerifyCatch s em).isOtpExpired
        = (s.isOtpExpired
            || (jsTruthy em && stringIncludes (jsToLowerCase (em.getD "")) "expired")) ∧
      (applyVerifyCatch s em).modalMessage
        = (if jsTruthy em && stringIncludes (jsToLowerCase (em.getD "")) "expired"
            then "OTP has expired. Please request a new one."
            else "Failed to verify OTP. Try again later.") := by
  intro s em
  unfold applyVerifyCatch
  by_cases h : (jsTruthy em && stringIncludes (jsToLowerCase (em.getD "")) "expired") = true
  · simp [h]
  · rw [Bool.not_eq_true] at h
    simp [h]

/-! ### Claim C10: paste with no digits is a no-op -/

/-- C10: if the pasted clipboard text contains zero decimal digits after
stripping non-digits, the paste is a complete no-op: the buffer keeps its
previous contents and no focus command is issued. -/
theorem paste_no_digits_noop (otp : List String) (clip : String)
    (h : (pasteDigits clip).length = 0) :
    handlePaste otp clip = (otp, none) := by
  unfold handlePaste
  simp [h]

/-- Witness for C10 at the digit-free clipboard string `"no digits!"`. -/
theorem paste_no_digits_noop_witness :
    handlePaste ["1", "2", "", "", ""] "no digits!" = (["1", "2", "", "", ""], none) :=
  paste_no_digits_noop ["1", "2", "", "", ""] "no digits!" (by decide)

/-! ### Counterexamples for the corrected claims C5, C6, C9 -/

/-- C5 counterexample: the claim, read at a clipboard string with zero
digits (`k = 0`), requires every slot in `[0, 5)` to be cleared; pasting
`"abc"` over the partially-filled buffer leaves slot 0 holding `"1"` — the
handler is a no-op when no digits survive the filter. -/
theorem paste_counterexample :
    handlePaste ["1", "2", "", "", ""] "abc" = (["1", "2", "", "", ""], none) ∧
    (handlePaste ["1", "2", "", "", ""] "abc").1.getD 0 "" ≠ "" := by
  decide

/-- C6 counterexample: Backspace on the empty slot 0 of
`["", "1", "", "", ""]` shifts the `"1"` left as claimed, but issues no focus
command — the claim requires focus to move to the resulting empty slot 1. -/
theorem backspace_counterexample :
    handleBackspace ["", "1", "", "", ""] 0 = (["1", "", "", "", ""], none) ∧
    (handleBackspace ["", "1", "", "", ""] 0).2 ≠ some 1 := by
  decide

/-- C9 counterexample: Delete on the empty slot 0 of `["", "1", "", "", ""]`
is a no-op, while the claim requires the same shift-left that Backspace
performs there (which would yield `["1", "", "", "", ""]`). -/
theorem delete_counterexample :
    handleDelete ["", "1", "", "", ""] 0 = (["", "1", "", "", ""], none) ∧
    (handleDelete ["", "1", "", "", ""] 0).1 ≠ ["1", "", "", "", ""] := by
  decide

/-! ### Claim C6 (corrected): Backspace semantics -/

/-- C6 amended: for every slot index `i < 5` of a 5-slot buffer — Backspace
on a non-empty slot clears it in place without moving focus; Backspace on an
empty slot with a non-empty slot at some greater index shifts the contents of
slots `[i..end]` left by one (slot 4 becoming empty) and issues no focus
command (focus stays where it was); Backspace on an empty slot with no
non-empty slot at any index `≥ i` clears slot `i-1` and focuses it when
`i > 0`, and does nothing when `i = 0`. -/
theorem backspace_amended (otp : List String) (idx : Nat)
    (h5 : otp.length = 5) (hidx : idx < 5) :
    (otp.getD idx "" ≠ "" → handleBackspace otp idx = (otp.set idx "", none)) ∧
    (otp.getD idx "" = "" → (∃ j, idx < j ∧ j < 5 ∧ otp.getD j "" ≠ "") →
      (handleBackspace otp idx).2 = none ∧
      ∀ j, j < 5 → (handleBackspace otp idx).1.getD j "" =
        if j < idx then otp.getD j ""
        else if j < 4 then otp.getD (j + 1) "" else "") ∧
    (otp.getD idx "" = "" → (∀ j, idx < j → j < 5 → otp.getD j "" = "") →
      (0 < idx → handleBackspace otp idx = (otp.set (idx - 1) "", some (idx - 1))) ∧
      (idx = 0 → handleBackspace otp idx = (otp, none))) := by
  refine ⟨?_, ?_, ?_⟩
  · intro hne
    unfold handleBackspace
    rw [if_pos hne]
  · intro hempty ⟨j0, hj0a, hj0b, hj0c⟩
    rcases lastFilledIndexFrom_spec otp idx with hemp | ⟨k, hkeq, hik, hk5, hkne, hkemp⟩
    · exact absurd (hemp j0 (by omega) (by omega)) hj0c
    · have hkidx : idx < k := by
        rcases Nat.eq_or_lt_of_le hik with rfl | h
        · exact absurd hempty hkne
        · exact h
      have hbranch : handleBackspace otp idx
          = ((shiftLoop otp idx k).set k "", none) := by
        unfold handleBackspace
        rw [if_neg (not_not_intro hempty)]
        show (if (idx : Int) < lastFilledIndexFrom otp idx then _ else _) = _
        rw [hkeq, if_pos (by exact_mod_cast hkidx), Int.toNat_natCast]
      rw [hbranch]
      exact ⟨rfl, shift_set_spec otp idx k h5 hik (by omega)
        (fun j hj1 hj2 => hkemp j hj1 (by omega))⟩
  · intro hempty hnone
    have hall : ∀ j, idx ≤ j → j < otp.length → otp.getD j "" = "" := by
      intro j hj1 hj2
      rcases Nat.eq_or_lt_of_le hj1 with rfl | hj
      · exact hempty
      · exact hnone j hj (by omega)
    have hneg : lastFilledIndexFrom otp idx = -1 :=
      lastFilledIndexFrom_all_empty otp idx hall
    have hbranch : handleBackspace otp idx
        = (if 0 < idx then (otp.set (idx - 1) "", some (idx - 1)) else (otp, none)) := by
      unfold handleBackspace
      rw [if_neg (not_not_intro hempty)]
      show (if (idx : Int) < lastFilledIndexFrom otp idx then _ else _) = _
      rw [hneg, if_neg (by omega)]
    constructor
    · intro hpos
      rw [hbranch, if_pos hpos]
    · intro hzero
      rw [hbranch, if_neg (by omega)]

/-- Witness for the amended C6: clearing in place at a non-empty slot, and
the shift case at `["1", "", "3", "4", ""]`, slot 1. -/
theorem backspace_amended_witness :
    handleBackspace ["1", "2", "", "", ""] 1 = (["1", "2", "", "", ""].set 1 "", none) ∧
    (handleBackspace ["1", "", "3", "4", ""] 1).2 = none ∧
    (handleBackspace ["1", "", "3", "4", ""] 1).1.getD 1 ""
      = ["1", "", "3", "4", ""].getD 2 "" := by
  refine ⟨(backspace_amended ["1", "2", "", "", ""] 1 (by decide) (by decide)).1 (by decide),
    ?_, ?_⟩
  · exact ((backspace_amended ["1", "", "3", "4", ""] 1 (by decide) (by decide)).2.1
      (by decide) ⟨2, by decide, by decide, by decide⟩).1
  · have h := ((backspace_amended ["1", "", "3", "4", ""] 1 (by decide) (by decide)).2.1
      (by decide) ⟨2, by decide, by decide, by decide⟩).2 1 (by decide)
    simpa using h

/-! ### Claim C9 (corrected): Delete semantics -/

/-- C9 amended: Delete on a non-empty slot `i` performs the shift-left of
slots `[i..end]` (the digit at `i` is removed, digits to the right move left
by one, the last previously-filled slot becomes empty) and issues no focus
command; Delete on an empty slot is a complete no-op (in particular it does
not perform the shift that Backspace performs on an empty slot). -/
theorem delete_amended (otp : List String) (idx : Nat)
    (h5 : otp.length = 5) (hidx : idx < 5) :
    (otp.getD idx "" = "" → handleDelete otp idx = (otp, none)) ∧
    (otp.getD idx "" ≠ "" →
      (handleDelete otp idx).2 = none ∧
      ∀ j, j < 5 → (handleDelete otp idx).1.getD j "" =
        if j < idx then otp.getD j ""
        else if j < 4 then otp.getD (j + 1) "" else "") := by
  constructor
  · intro hempty
    unfold handleDelete
    rw [if_neg (not_not_intro hempty)]
  · intro hne
    rcases lastFilledIndexFrom_spec otp idx with hemp | ⟨k, hkeq, hik, hk5, hkne, hkemp⟩
    · exact absurd (hemp idx le_rfl (by omega)) hne
    · have hbranch : handleDelete otp idx = ((shiftLoop otp idx k).set k "", none) := by
        unfold handleDelete
        rw [if_pos hne]
        show (if (idx : Int) ≤ lastFilledIndexFrom otp idx then _ else _, _) = _
        rw [hkeq, if_pos (by exact_mod_cast hik), Int.toNat_natCast]
      rw [hbranch]
      exact ⟨rfl, shift_set_spec otp idx k h5 hik (by omega)
        (fun j hj1 hj2 => hkemp j hj1 (by omega))⟩

/-- Witness for the amended C9: the no-op case on an empty slot and the
shift case at `["1", "2", "3", "", ""]`, slot 0. -/
theorem delete_amended_witness :
    handleDelete ["", "", "", "", ""] 2 = (["", "", "", "", ""], none) ∧
    (handleDelete ["1", "2", "3", "", ""] 0).2 = none ∧
    (handleDelete ["1", "2", "3", "", ""] 0).1.getD 0 ""
      = ["1", "2", "3", "", ""].getD 1 "" := by
  refine ⟨(delete_amended ["", "", "", "", ""] 2 (by decide) (by decide)).1 (by decide),
    ?_, ?_⟩
  · exact ((delete_amended ["1", "2", "3", "", ""] 0 (by decide) (by decide)).2 (by decide)).1
  · have h := ((delete_amended ["1", "2", "3", "", ""] 0 (by decide) (by decide)).2
      (by decide)).2 0 (by decide)
    simpa using h

/-! ### Claim C5 (corrected): paste semantics -/

/-- C5 amended: for every pasted clipboard string that still contains at
least one decimal digit after stripping non-digits and truncating to 5 (let
`k` be their number, `1 ≤ k ≤ 5`): the paste fills slots `[0, k)` with those
digits in order, clears every slot in `[k, 5)`, and moves focus to
`min k 4` — the first empty slot when `k < 5` (every slot below the focused
one is non-empty and the focused one is empty), and the last slot when
`k = 5`.  (With zero digits the paste is a no-op, see the counterexample.) -/
theorem paste_amended (otp : List String) (clip : String)
    (h5 : otp.length = 5) (hk : 0 < (pasteDigits clip).length) :
    (handlePaste otp clip).2 = some (min (pasteDigits clip).length 4) ∧
    (handlePaste otp clip).1.length = 5 ∧
    (∀ j, j < 5 → (handlePaste otp clip).1.getD j "" =
      if hj : j < (pasteDigits clip).length
      then String.singleton ((pasteDigits clip).get ⟨j, hj⟩) else "") ∧
    ((pasteDigits clip).length < 5 →
      min (pasteDigits clip).length 4 = (pasteDigits clip).length ∧
      (handlePaste otp clip).1.getD (pasteDigits clip).length "" = "" ∧
      ∀ j, j < (pasteDigits clip).length → (handlePaste otp clip).1.getD j "" ≠ "") ∧
    ((pasteDigits clip).length = 5 → min (pasteDigits clip).length 4 = 4) := by
  have hlen5 : (pasteDigits clip).length ≤ 5 := by
    unfold pasteDigits
    exact (List.length_take_le _ _)
  have hfst : (handlePaste otp clip).1 = (List.range 5).foldl
      (fun a i =>
        a.set i (if h : i < (pasteDigits clip).length
          then String.singleton ((pasteDigits clip).get ⟨i, h⟩) else "")) otp := by
    unfold handlePaste
    rw [if_pos hk]
  have hsnd : (handlePaste otp clip).2 = some (min (pasteDigits clip).length 4) := by
    unfold handlePaste
    rw [if_pos hk]
  have hgetD : ∀ j, j < 5 → (handlePaste otp clip).1.getD j "" =
      if hj : j < (pasteDigits clip).length
      then String.singleton ((pasteDigits clip).get ⟨j, hj⟩) else "" := by
    intro j hj
    rw [hfst, fold_set_getD _ (List.range 5) otp j (by omega),
      if_pos (List.mem_range.mpr hj)]
  refine ⟨hsnd, ?_, hgetD, ?_, ?_⟩
  · rw [hfst, fold_set_length, h5]
  · intro hlt
    refine ⟨by omega, ?_, ?_⟩
    · rw [hgetD _ hlt, dif_neg (by omega)]
    · intro j hjk
      rw [hgetD _ (by omega), dif_pos hjk]
      exact singleton_ne_empty _
  · intro heq
    rw [heq]
    rfl

/-- Witness for the amended C5 at the clipboard string `"1a2b3"` (digits
`1`, `2`, `3`) over a previously full buffer. -/
theorem paste_amended_witness :
    (handlePaste ["9", "9", "9", "9", "9"] "1a2b3").2
      = some (min (pasteDigits "1a2b3").length 4) ∧
    (handlePaste ["9", "9", "9", "9", "9"] "1a2b3").1.length = 5 ∧
    (handlePaste ["9", "9", "9", "9", "9"] "1a2b3").1.getD (pasteDigits "1a2b3").length "" = "" := by
  have h := paste_amended ["9", "9", "9", "9", "9"] "1a2b3" (by decide) (by decide)
  exact ⟨h.1, h.2.1, (h.2.2.2.1 (by decide)).2.1⟩

/-! ### Claim C1: local guard of Verify -/

/-- C1: for every idle widget state (no verification in flight — the Verify
button is disabled while one is) with a well-formed 5-slot buffer: if some
slot is empty, or the session reference is the empty string, or the expiry
flag is set, pressing Verify performs no network call and instead reports a
local error message; and the network call `verifyOTP(code, referenceId)` is
made exactly when all 5 slots are filled, the reference is non-empty, and
the countdown has not expired. -/
theorem verify_local_guard (otp : List String) (ref : String) (expired : Bool)
    (h5 : otp.length = 5) (hv : ∀ x ∈ otp, validSlot x = true) :
    (((∃ x ∈ otp, x = "") ∨ ref = "" ∨ expired = true) →
      ∃ m, handleVerifyLocal otp ref expired false = .localError m) ∧
    (handleVerifyLocal otp ref expired false = .network (String.join otp) ↔
      ((∀ x ∈ otp, x ≠ "") ∧ ref ≠ "" ∧ expired = false)) := by
  have hjoin : (String.join otp).length = 5 ↔ ∀ x ∈ otp, x ≠ "" := by
    have h := join_length_eq_iff otp hv
    rw [h5] at h
    exact h
  by_cases hc : (String.join otp).length = 5
  · by_cases hexp : expired = true
    · have hd : handleVerifyLocal otp ref expired false
          = .localError "OTP has expired. Please request a new one." := by
        unfold handleVerifyLocal
        rw [if_neg (by simp), if_neg (not_not_intro hc), if_pos (by simp [hexp])]
      refine ⟨fun _ => ⟨_, hd⟩, ?_⟩
      rw [hd]
      constructor
      · intro h
        exact absurd h (by simp)
      · intro ⟨_, _, hexp'⟩
        rw [hexp] at hexp'
        exact absurd hexp' (by simp)
    · have hexp' : expired = false := by
        rcases expired with _ | _
        · rfl
        · exact absurd rfl hexp
      by_cases href : ref = ""
      · have hd : handleVerifyLocal otp ref expired false
            = .localError "OTP has expired. Please request a new one." := by
          unfold handleVerifyLocal
          rw [if_neg (by simp), if_neg (not_not_intro hc), if_pos (by simp [href])]
        refine ⟨fun _ => ⟨_, hd⟩, ?_⟩
        rw [hd]
        constructor
        · intro h
          exact absurd h (by simp)
        · intro ⟨_, href', _⟩
          exact absurd href href'
      · have hd : handleVerifyLocal otp ref expired false = .network (String.join otp) := by
          unfold handleVerifyLocal
          rw [if_neg (by simp), if_neg (not_not_intro hc), if_neg (by simp [href, hexp'])]
        refine ⟨?_, ?_⟩
        · intro h
          rcases h with hex | href' | hexp''
          · rcases hex with ⟨x, hx, hxe⟩
            have := (hjoin.mp hc) x hx
            exact absurd hxe this
          · exact absurd href' href
          · exact absurd hexp'' hexp
        · rw [hd]
          exact ⟨fun _ => ⟨hjoin.mp hc, href, hexp'⟩, fun _ => rfl⟩
  · have hd : handleVerifyLocal otp ref expired false
        = .localError "Please enter all 5 digits." := by
      unfold handleVerifyLocal
      rw [if_neg (by simp), if_pos hc]
    refine ⟨fun _ => ⟨_, hd⟩, ?_⟩
    rw [hd]
    constructor
    · intro h
      exact absurd h (by simp)
    · intro ⟨hall, _, _⟩
      exact absurd (hjoin.mpr hall) hc

/-- Witness for C1: an incomplete buffer is rejected locally, and a complete
buffer with a live session reaches the network call with the joined code. -/
theorem verify_local_guard_witness :
    (∃ m, handleVerifyLocal ["1", "2", "3", "4", ""] "ref1" false false
      = VerifyDecision.localError m) ∧
    (handleVerifyLocal ["1", "2", "3", "4", "5"] "ref1" false false
      = VerifyDecision.network (String.join ["1", "2", "3", "4", "5"])) := by
  constructor
  · exact (verify_local_guard ["1", "2", "3", "4", ""] "ref1" false (by decide)
      (by decide)).1 (Or.inl ⟨"", by decide, rfl⟩)
  · exact (verify_local_guard ["1", "2", "3", "4", "5"] "ref1" false (by decide)
      (by decide)).2.mpr ⟨by decide, by decide, rfl⟩

/-! ### Preservation of the buffer invariant by every event -/

theorem validSlot_empty : validSlot "" = true := rfl

theorem validBuf_set (otp : List String) (idx : Nat) (v : String)
    (hv : validBuf otp) (hval : validSlot v = true) : validBuf (otp.set idx v) := by
  refine ⟨by rw [List.length_set]; exact hv.1, ?_⟩
  intro x hx
  rcases List.mem_or_eq_of_mem_set hx with h | h
  · exact hv.2 x h
  · rw [h]; exact hval

theorem handleChange_preserves (otp : List String) (v : String) (idx : Nat)
    (hv : validBuf otp) : validBuf (handleChange otp v idx).1 := by
  unfold handleChange
  split
  · next hreg => exact validBuf_set otp idx v hv hreg
  · exact hv

theorem shiftSet_validBuf (otp : List String) (idx k : Nat) (hv : validBuf otp) :
    validBuf ((shiftLoop otp idx k).set k "") := by
  refine ⟨by rw [List.length_set, shiftLoop_length]; exact hv.1, ?_⟩
  intro x hx
  rcases List.mem_or_eq_of_mem_set hx with h | h
  · rcases shift_fold_mem _ otp x h with h' | h'
    · exact hv.2 x h'
    · rw [h']; rfl
  · rw [h]; rfl

theorem handleBackspace_preserves (otp : List String) (idx : Nat)
    (hv : validBuf otp) : validBuf (handleBackspace otp idx).1 := by
  unfold handleBackspace
  dsimp only
  split
  · exact validBuf_set otp idx "" hv rfl
  · split
    · exact shiftSet_validBuf otp idx _ hv
    · split
      · exact validBuf_set otp (idx - 1) "" hv rfl
      · exact hv

theorem shift_validBuf (otp : List String) (idx k : Nat) (hv : validBuf otp) :
    validBuf (shiftLoop otp idx k) := by
  refine ⟨by rw [shiftLoop_length]; exact hv.1, ?_⟩
  intro x hx
  rcases shift_fold_mem _ otp x hx with h' | h'
  · exact hv.2 x h'
  · rw [h']; rfl

theorem handleDelete_preserves (otp : List String) (idx : Nat)
    (hv : validBuf otp) : validBuf (handleDelete otp idx).1 := by
  unfold handleDelete
  split
  · show validBuf (if _ then _ else _)
    split
    · exact shiftSet_validBuf otp idx _ hv
    · exact shift_validBuf otp idx _ hv
  · exact hv

theorem pasteDigits_isDigit {clip : String} {c : Char} (h : c ∈ pasteDigits clip) :
    c.isDigit = true := by
  unfold pasteDigits at h
  exact (List.mem_filter.mp (List.mem_of_mem_take h)).2

theorem handlePaste_preserves (otp : List String) (clip : String)
    (hv : validBuf otp) : validBuf (handlePaste otp clip).1 := by
  unfold handlePaste
  dsimp only
  split
  · show validBuf ((List.range 5).foldl
      (fun a i =>
        a.set i (if h : i < (pasteDigits clip).length
          then String.singleton ((pasteDigits clip).get ⟨i, h⟩) else "")) otp)
    refine ⟨by rw [fold_set_length]; exact hv.1, ?_⟩
    intro x hx
    rcases fold_set_mem _ (List.range 5) otp x hx with h | ⟨i, _, h⟩
    · exact hv.2 x h
    · rw [h]
      by_cases hi : i < (pasteDigits clip).length
      · rw [dif_pos hi]
        exact validSlot_singleton (pasteDigits_isDigit (List.get_mem _ _ hi))
      · rw [dif_neg hi]
        rfl
  · exact hv

theorem step_preserves_validBuf {s s' : WState} (h : Step s s')
    (hv : validBuf s.otp) : validBuf s'.otp := by
  cases h with
  | tick ht =>
      unfold tickResult
      dsimp only
      split
      · exact hv
      · exact hv
  | expireEffect h0 => exact hv
  | change v idx => exact handleChange_preserves s.otp v idx hv
  | keyBackspace idx => exact handleBackspace_preserves s.otp idx hv
  | keyDelete idx => exact handleDelete_preserves s.otp idx hv
  | paste clip => exact handlePaste_preserves s.otp clip hv
  | verifyReject m ref hd => exact hv
  | verifyResp sc =>
      unfold applyVerifyResponse
      split
      · exact hv
      · split
        · exact hv
        · split
          · exact hv
          · exact hv
  | verifyCatch em =>
      unfold applyVerifyCatch
      split
      · exact hv
      · exact hv
  | closeModal => exact hv
  | resendResp res hres =>
      unfold applyResendResponse
      split
      · refine ⟨rfl, ?_⟩
        intro x hx
        have hx' : x = "" := by simpa using hx
        rw [hx']
        rfl
      · exact hv

/-! ### Claim C2: the buffer invariant -/

/-- C2: the initial buffer satisfies the invariant "exactly 5 slots, each
empty or a single decimal digit"; every event of the widget (typing,
backspace, delete, paste, verify outcomes, and the resend-success reset)
preserves it, so it holds in every reachable state; and typing a character
that is not a decimal digit leaves the buffer unchanged (and moves no
focus). -/
theorem buffer_invariant :
    validBuf initState.otp ∧
    (∀ s s' : WState, validBuf s.otp → Step s s' → validBuf s'.otp) ∧
    (∀ s : WState, Reachable s → validBuf s.otp) ∧
    (∀ (otp : List String) (c : Char) (idx : Nat), c.isDigit = false →
      handleChange otp (String.singleton c) idx = (otp, none)) := by
  have hinit : validBuf initState.otp := ⟨rfl, by decide⟩
  refine ⟨hinit, fun s s' hv h => step_preserves_validBuf h hv, ?_, ?_⟩
  · intro s h
    induction h with
    | refl => exact hinit
    | tail hab hbc ih => exact step_preserves_validBuf hbc ih
  · intro otp c idx hc
    have hreg : matchesDigitOptRegex (String.singleton c) = c.isDigit := rfl
    unfold handleChange
    rw [if_neg (by rw [hreg, hc]; exact Bool.false_ne_true)]

/-- Witness for C2: the invariant after one countdown tick from the initial
state (a reachable state), and rejection of the non-digit character `'x'`. -/
theorem buffer_invariant_witness :
    validBuf (tickResult initState).otp ∧
    handleChange ["1", "", "", "", ""] (String.singleton 'x') 0
      = (["1", "", "", "", ""], none) :=
  ⟨buffer_invariant.2.1 initState (tickResult initState) buffer_invariant.1
      (Step.tick initState (by decide)),
   buffer_invariant.2.2.2 ["1", "", "", "", ""] 'x' 0 (by decide)⟩

/-! ### Auxiliary lemmas for the countdown/expiry claim -/

theorem verify_no_network_of_expired (otp : List String) (ref : String) :
    ∀ c, handleVerifyLocal otp ref true false ≠ .network c := by
  intro c
  unfold handleVerifyLocal
  rw [if_neg (by simp)]
  dsimp only
  by_cases hc : (String.join otp).length = 5
  · rw [if_neg (not_not_intro hc), if_pos (by simp)]
    simp
  · rw [if_pos hc]
    simp

theorem timer_zero_invariant_step {s s' : WState} (h : Step s s')
    (hv : s.timer = 0 → s.isOtpExpired = true ∧ s.disabledResend = false) :
    s'.timer = 0 → s'.isOtpExpired = true ∧ s'.disabledResend = false := by
  cases h with
  | tick ht =>
      unfold tickResult
      dsimp only
      split
      · intro _
        exact ⟨rfl, rfl⟩
      · next hne =>
          intro h0
          exact absurd h0 hne
  | expireEffect h0 =>
      intro _
      exact ⟨rfl, rfl⟩
  | change v idx => exact hv
  | keyBackspace idx => exact hv
  | keyDelete idx => exact hv
  | paste clip => exact hv
  | verifyReject m ref hd => exact hv
  | verifyResp sc =>
      unfold applyVerifyResponse
      split
      · exact hv
      · split
        · exact hv
        · split
          · intro h0
            exact ⟨rfl, (hv h0).2⟩
          · exact hv
  | verifyCatch em =>
      unfold applyVerifyCatch
      split
      · intro h0
        exact ⟨rfl, (hv h0).2⟩
      · exact hv
  | closeModal => exact hv
  | resendResp res hres =>
      unfold applyResendResponse
      split
      · intro h0
        have h60 : (60 : Nat) = 0 := h0
        omega
      · exact hv

theorem tickResult_timer (s : WState) : (tickResult s).timer = s.timer - 1 := by
  unfold tickResult
  dsimp only
  split
  · rfl
  · rfl

/-- The countdown chain: after `k ≤ 59` ticks from the initial state the
widget is in the initial state with `timer = 60 - k`. -/
theorem reachable_countdown : ∀ k, k ≤ 59 → Reachable { initState with timer := 60 - k } := by
  intro k
  induction k with
  | zero =>
      intro _
      show Reachable initState
      exact Relation.ReflTransGen.refl
  | succ m ih =>
      intro hm
      have hr := ih (by omega)
      have hstep := Step.tick { initState with timer := 60 - m }
        (by show 0 < 60 - m; omega)
      have heq : tickResult { initState with timer := 60 - m }
          = { initState with timer := 60 - (m + 1) } := by
        unfold tickResult
        dsimp only
        rw [if_neg (by show ¬(60 - m - 1 = 0); omega)]
        show ({ initState with timer := 60 - m - 1 } : WState) = _
        have harith : 60 - m - 1 = 60 - (m + 1) := by omega
        rw [harith]
      exact hr.tail (heq ▸ hstep)

/-- The state reached when the countdown hits zero: timer 0, resend enabled,
expiry flag set. -/
theorem reachable_zero_state :
    Reachable { initState with timer := 0, disabledResend := false, isOtpExpired := true } := by
  have hr := reachable_countdown 59 le_rfl
  have hstep := Step.tick { initState with timer := 60 - 59 }
    (by show 0 < 60 - 59; omega)
  have heq : tickResult { initState with timer := 60 - 59 }
      = { initState with timer := 0, disabledResend := false, isOtpExpired := true } := rfl
  exact hr.tail (heq ▸ hstep)

/-! ### Claim C4: countdown and expiry -/

/-- C4: the countdown starts at 60 and each tick, taken only while the timer
is positive, decrements it by exactly one; no event increases the timer other
than a resend resetting it to 60; in every reachable state with `timer = 0`
the expiry flag is set, resend is unlocked (`disabledResend = false`), and
Verify is rejected locally (no `verifyOTP` call); and once the expiry flag is
set, every event either keeps it set or is a successful resend that clears it
while resetting the countdown to 60 and re-disabling resend. -/
theorem countdown_expiry :
    initState.timer = 60 ∧
    (∀ s : WState, 0 < s.timer → (tickResult s).timer = s.timer - 1) ∧
    (∀ s s' : WState, Step s s' →
      s'.timer = s.timer ∨ s'.timer + 1 = s.timer ∨ s'.timer = 60) ∧
    (∀ s : WState, Reachable s → s.timer = 0 →
      s.isOtpExpired = true ∧ s.disabledResend = false ∧
      ∀ ref c : String, handleVerifyLocal s.otp ref s.isOtpExpired false ≠ .network c) ∧
    (∀ s s' : WState, Step s s' → s.isOtpExpired = true →
      s'.isOtpExpired = true ∨
      (s'.isOtpExpired = false ∧ s'.timer = 60 ∧ s'.disabledResend = true)) := by
  have hinv : ∀ s : WState, Reachable s →
      (s.timer = 0 → s.isOtpExpired = true ∧ s.disabledResend = false) := by
    intro s h
    induction h with
    | refl =>
        intro h0
        have h60 : (60 : Nat) = 0 := h0
        omega
    | tail hab hbc ih => exact timer_zero_invariant_step hbc ih
  refine ⟨rfl, fun s _ => tickResult_timer s, ?_, ?_, ?_⟩
  · intro s s' h
    cases h with
    | tick ht =>
        right; left
        rw [tickResult_timer]
        omega
    | expireEffect h0 => left; rfl
    | change v idx => left; rfl
    | keyBackspace idx => left; rfl
    | keyDelete idx => left; rfl
    | paste clip => left; rfl
    | verifyReject m ref hd => left; rfl
    | verifyResp sc =>
        unfold applyVerifyResponse
        split
        · left; rfl
        · split
          · left; rfl
          · split
            · left; rfl
            · left; rfl
    | verifyCatch em =>
        unfold applyVerifyCatch
        split
        · left; rfl
        · left; rfl
    | closeModal => left; rfl
    | resendResp res hres =>
        unfold applyResendResponse
        split
        · right; right; rfl
        · left; rfl
  · intro s hr h0
    have h := hinv s hr h0
    refine ⟨h.1, h.2, ?_⟩
    rw [h.1]
    exact fun ref c => verify_no_network_of_expired s.otp ref c
  · intro s s' h hexp
    cases h with
    | tick ht =>
        unfold tickResult
        dsimp only
        split
        · left; rfl
        · left; exact hexp
    | expireEffect h0 => left; rfl
    | change v idx => left; exact hexp
    | keyBackspace idx => left; exact hexp
    | keyDelete idx => left; exact hexp
    | paste clip => left; exact hexp
    | verifyReject m ref hd => left; exact hexp
    | verifyResp sc =>
        unfold applyVerifyResponse
        split
        · left; exact hexp
        · split
          · left; exact hexp
          · split
            · left; rfl
            · left; exact hexp
    | verifyCatch em =>
        unfold applyVerifyCatch
        split
        · left; rfl
        · left; exact hexp
    | closeModal => left; exact hexp
    | resendResp res hres =>
        unfold applyResendResponse
        split
        · right
          exact ⟨rfl, rfl, rfl⟩
        · left; exact hexp

/-- Witness for C4: a tick from the initial state decrements the timer, and
the concrete reachable timer-zero state has the expiry flag set with resend
unlocked. -/
theorem countdown_expiry_witness :
    (tickResult initState).timer = initState.timer - 1 ∧
    ({ initState with
        timer := 0, disabledResend := false,
        isOtpExpired := true } : WState).isOtpExpired = true ∧
    ({ initState with
        timer := 0, disabledResend := false,
        isOtpExpired := true } : WState).disabledResend = false := by
  refine ⟨countdown_expiry.2.1 initState (by decide), ?_, ?_⟩
  · exact (countdown_expiry.2.2.2.1 _ reachable_zero_state rfl).1
  · exact (countdown_expiry.2.2.2.1 _ reachable_zero_state rfl).2.1

end OTPWidget
